import Mathlib

/-!
Verification development for the fine-tune orchestration pipeline
(`gather-and-finetune.js`) and the feedback-ingestion handler
(`netlify/functions/store-feedback.js`).

The JavaScript source is shallowly embedded: the pipeline becomes a pure
function from an explicit `World` (environment variables and the responses
of the three remote services) to a process exit code together with the
ordered list of observable effects (file write, network calls, waits and
the console messages the specification refers to).  The unbounded polling
loop is modelled with explicit fuel: a `none` exit code means the process
is still polling after `fuel` status queries, mirroring the fact that the
source loop has no attempt limit.
-/

/-! ## JSON line encoding (JSON.stringify on {prompt, completion}) -/

/-- Hexadecimal digit characters as emitted by JSON.stringify's u-escapes. -/
def hexDigit (n : Nat) : Char :=
  match n with
  | 0 => '0' | 1 => '1' | 2 => '2' | 3 => '3' | 4 => '4' | 5 => '5'
  | 6 => '6' | 7 => '7' | 8 => '8' | 9 => '9' | 10 => 'a' | 11 => 'b'
  | 12 => 'c' | 13 => 'd' | 14 => 'e' | 15 => 'f' | _ => '0'

/-- Value of a hexadecimal digit character. -/
def hexVal (c : Char) : Option Nat :=
  if c = '0' then some 0 else if c = '1' then some 1
  else if c = '2' then some 2 else if c = '3' then some 3
  else if c = '4' then some 4 else if c = '5' then some 5
  else if c = '6' then some 6 else if c = '7' then some 7
  else if c = '8' then some 8 else if c = '9' then some 9
  else if c = 'a' then some 10 else if c = 'b' then some 11
  else if c = 'c' then some 12 else if c = 'd' then some 13
  else if c = 'e' then some 14 else if c = 'f' then some 15
  else none

/-- Escaping of one character inside a JSON string literal, exactly as
JSON.stringify does it: quote and backslash get a backslash escape, the
five named control characters get their short escapes, all other control
characters below U+0020 get a u-escape, everything else is emitted as is. -/
def escChar (c : Char) : List Char :=
  if c = '"' then ['\\', '"']
  else if c = '\\' then ['\\', '\\']
  else if c = '\x08' then ['\\', 'b']
  else if c = '\t' then ['\\', 't']
  else if c = '\n' then ['\\', 'n']
  else if c = '\x0c' then ['\\', 'f']
  else if c = '\r' then ['\\', 'r']
  else if c.toNat < 32 then
    ['\\', 'u', '0', '0', hexDigit (c.toNat / 16), hexDigit (c.toNat % 16)]
  else [c]

/-- JSON string literal for `s`: opening quote, escaped characters, closing
quote. -/
def jstr (s : String) : List Char :=
  '"' :: s.data.flatMap escChar ++ ['"']

/-- The serialized form of one training example, character for character the
output of JSON.stringify on an object with the two fields prompt and
completion (in that insertion order). -/
def jsonLine (p c : String) : List Char :=
  '{' :: jstr "prompt" ++ ':' :: jstr p ++ ',' :: jstr "completion" ++ ':' :: jstr c ++ ['}']

/-- Prepend a character to the string part of a partial parse result. -/
def consChar (c : Char) : Option (List Char × List Char) → Option (List Char × List Char)
  | none => none
  | some (s, r) => some (c :: s, r)

/-- Parser for the body of a JSON string literal (after the opening quote):
returns the decoded characters and the remainder after the closing quote.
It understands exactly the escapes the encoder emits. -/
def parseJStr : List Char → Option (List Char × List Char)
  | [] => none
  | c :: rest =>
    if c = '"' then some ([], rest)
    else if c = '\\' then
      match rest with
      | [] => none
      | e :: r =>
        if e = '"' then consChar '"' (parseJStr r)
        else if e = '\\' then consChar '\\' (parseJStr r)
        else if e = 'b' then consChar '\x08' (parseJStr r)
        else if e = 't' then consChar '\t' (parseJStr r)
        else if e = 'n' then consChar '\n' (parseJStr r)
        else if e = 'f' then consChar '\x0c' (parseJStr r)
        else if e = 'r' then consChar '\r' (parseJStr r)
        else if e = 'u' then
          match r with
          | z1 :: z2 :: h1 :: h2 :: r2 =>
            if z1 = '0' ∧ z2 = '0' then
              match hexVal h1, hexVal h2 with
              | some a, some b => consChar (Char.ofNat (16 * a + b)) (parseJStr r2)
              | _, _ => none
            else none
          | _ => none
        else none
    else consChar c (parseJStr rest)

/-- Expect a fixed leading character, return the remainder. -/
def expectChar (c : Char) (l : List Char) : Option (List Char) :=
  match l with
  | [] => none
  | x :: rest => if x = c then some rest else none

/-- Parse one quoted-key, quoted-value pair of a JSON object. -/
def parseKeyVal (l : List Char) : Option (List Char × List Char × List Char) :=
  match expectChar '"' l with
  | none => none
  | some r1 =>
    match parseJStr r1 with
    | none => none
    | some (k, r2) =>
      match expectChar ':' r2 with
      | none => none
      | some r3 =>
        match expectChar '"' r3 with
        | none => none
        | some r4 =>
          match parseJStr r4 with
          | none => none
          | some (v, r5) => some (k, v, r5)

/-- Decoder for one dataset line.  It succeeds exactly on a JSON object with
the two string keys prompt and completion in that order and nothing else,
returning the decoded pair. -/
def decodeLine (l : List Char) : Option (String × String) :=
  match expectChar '{' l with
  | none => none
  | some r1 =>
    match parseKeyVal r1 with
    | none => none
    | some (k1, v1, r2) =>
      match expectChar ',' r2 with
      | none => none
      | some r3 =>
        match parseKeyVal r3 with
        | none => none
        | some (k2, v2, r4) =>
          match expectChar '}' r4 with
          | none => none
          | some r5 =>
            if r5 = [] ∧ k1 = "prompt".data ∧ k2 = "completion".data then
              some (⟨v1⟩, ⟨v2⟩)
            else none

/-! ## Newline splitting and joining (the JSONL file layout) -/

/-- Split a character list at every newline; a trailing newline yields a
final empty segment, so a well-formed JSONL file splits into its lines
followed by one empty segment. -/
def splitNl : List Char → List (List Char)
  | [] => [[]]
  | c :: rest =>
    if c = '\n' then [] :: splitNl rest
    else (splitNl rest).modifyHead fun l => c :: l

/-- Join lines with single newline separators, as lines.join of the source
does. -/
def joinLines : List (List Char) → List Char
  | [] => []
  | [l] => l
  | l :: ls => l ++ '\n' :: joinLines ls

/-! ## Data model -/

/-- A row of the feedback table, as the pipeline reads it.  rating is
nullable (the ingestion handler stores null when the client sent none) and
generated_text is optional so that a row lacking it can be distinguished:
on such a row the source expression row.generated_text.trim() throws. -/
structure Row where
  section_id : String
  rating : Option Int
  feedback : String
  generated_text : Option String
deriving DecidableEq, Repr

/-- The feedback query of the pipeline: all rows whose rating is at least 6
(the gte filter of the database query; a null rating never satisfies it). -/
def fetchHighRated (db : List Row) : List Row :=
  db.filter fun r =>
    match r.rating with
    | some n => 6 ≤ n
    | none => false

/-- Whitespace for the JavaScript String.prototype.trim. -/
def isJsWs (c : Char) : Bool :=
  c = ' ' || c = '\t' || c = '\n' || c = '\r' || c = '\x0b' || c = '\x0c' ||
    c = ' ' || c = '﻿'

/-- JavaScript trim on a character list: drop whitespace from both ends. -/
def jsTrimChars (l : List Char) : List Char :=
  ((l.dropWhile isJsWs).reverse.dropWhile isJsWs).reverse

/-- JavaScript String.prototype.trim. -/
def jsTrim (s : String) : String :=
  ⟨jsTrimChars s.data⟩

/-- The prompt template of the pipeline (template literal of the source). -/
def mkPrompt (r : Row) : String :=
  "Section: " ++ r.section_id ++ "\nUser feedback: " ++ r.feedback ++
    "\n\nNow produce the final text:\n"

/-- The completion: generated text trimmed, with the fixed stop marker. -/
def mkCompletion (g : String) : String :=
  jsTrim g ++ " END"

/-- Failure of dataset construction (the TypeError thrown by calling trim
on a missing generated_text). -/
inductive BuildErr
  | malformedRecord
deriving DecidableEq, Repr

/-- Build the serialized JSON line for one row; fails when the row has no
generated_text, exactly where the source would throw. -/
def buildLine (r : Row) : Except BuildErr (List Char) :=
  match r.generated_text with
  | none => .error .malformedRecord
  | some g => .ok (jsonLine (mkPrompt r) (mkCompletion g))

/-- Map buildLine over the rows, left to right, stopping at the first
failure — the evaluation order of rows.map in the source, where the first
malformed row throws before any later row is touched. -/
def buildLines : List Row → Except BuildErr (List (List Char))
  | [] => .ok []
  | r :: rs =>
    match buildLine r with
    | .error e => .error e
    | .ok l =>
      match buildLines rs with
      | .error e => .error e
      | .ok ls => .ok (l :: ls)

/-- Content of the training-data.jsonl file: the lines joined with single
newlines plus one final newline. -/
def datasetChars (ls : List (List Char)) : List Char :=
  joinLines ls ++ ['\n']

/-! ## The pipeline as a function of an explicit world -/

/-- Observable effects of one pipeline run, in order of occurrence.
Console output is modelled for the messages the specification refers to. -/
inductive Effect
  | queryFeedback
  | writeFile (content : String)
  | uploadFile
  | createJob (fileId : String)
  | retrieveJob (k : Nat)
  | wait (ms : Nat)
  | netlifyListEnv
  | netlifyCreateEnv (key value : String)
  | netlifyPatchEnv (id value : String)
  | netlifyBuild
  | print (msg : String)
deriving DecidableEq, Repr

/-- Network calls among the effects (everything that leaves the process
except the local file write, the waits and the console output). -/
def isNetworkCall : Effect → Bool
  | .queryFeedback => true
  | .uploadFile => true
  | .createJob _ => true
  | .retrieveJob _ => true
  | .netlifyListEnv => true
  | .netlifyCreateEnv _ _ => true
  | .netlifyPatchEnv _ _ => true
  | .netlifyBuild => true
  | _ => false

/-- Calls against the hosting configuration API: list, create, update and
the redeploy trigger. -/
def isConfigCall : Effect → Bool
  | .netlifyListEnv => true
  | .netlifyCreateEnv _ _ => true
  | .netlifyPatchEnv _ _ => true
  | .netlifyBuild => true
  | _ => false

/-- Side effects the empty-input early exit must not perform: the dataset
file write, the upload and the job submission. -/
def isPipelineSideEffect : Effect → Bool
  | .writeFile _ => true
  | .uploadFile => true
  | .createJob _ => true
  | e => isConfigCall e

/-- Response of one fine-tune retrieval. -/
structure RetrieveResp where
  status : String
  fine_tuned_model : String
deriving DecidableEq, Repr

/-- An entry of the hosting platform's environment configuration. -/
structure EnvEntry where
  id : String
  key : String
deriving DecidableEq, Repr

/-- Everything outside the process that a run consumes: the environment
variables it checks and the responses of the remote services, where
Except.error stands for a thrown network error.  retrieve gives the
response of the k-th status retrieval, counted from 0 across the whole
run. -/
structure World where
  supabaseUrl : Option String
  supabaseKey : Option String
  queryResult : Except Unit (List Row)
  uploadResult : Except Unit String
  createResult : Except Unit (String × String)
  retrieve : Nat → Except Unit RetrieveResp
  netlifyToken : Option String
  netlifySiteId : Option String
  listEnvResult : Except Unit (List EnvEntry)
  createEnvOk : Bool
  patchEnvOk : Bool
  buildOk : Bool

/-- JavaScript falsiness of an environment variable: unset or empty. -/
def jsFalsy : Option String → Bool
  | none => true
  | some s => s = ""

/-- A status on which the polling loop stops. -/
def terminalStatus (s : String) : Bool :=
  s = "succeeded" || s = "failed"

/-- Outcome of the polling loop under the given fuel: still polling after
that many queries, a retrieval error, or a terminal status together with
the number of queries made. -/
inductive PollOut
  | fuelOut (queries : Nat)
  | netErr (queries : Nat)
  | done (status : String) (queries : Nat)
deriving DecidableEq, Repr

/-- The polling loop of the source: while the status is not terminal, wait
30 seconds and retrieve the status again.  k counts the retrievals made so
far; the fuel only bounds how far the unbounded source loop is unrolled. -/
def pollLoop (retrieve : Nat → Except Unit RetrieveResp) (fuel : Nat)
    (status : String) (k : Nat) : PollOut × List Effect :=
  if terminalStatus status then (.done status k, [])
  else
    match fuel with
    | 0 => (.fuelOut k, [])
    | fuel2 + 1 =>
      match retrieve k with
      | .error _ => (.netErr k, [.wait 30000, .retrieveJob k])
      | .ok resp =>
        let next := pollLoop retrieve fuel2 resp.status (k + 1)
        (next.1, .wait 30000 :: .retrieveJob k :: next.2)

/-- Termination of the run through the top-level catch: the error is logged
and the process exits with code 1. -/
def errorExit (effs : List Effect) : Option Nat × List Effect :=
  (some 1, effs ++ [.print "Fine-tune script error:"])

/-- The configuration-publishing tail of the run: list the environment,
upsert FINE_TUNED_MODEL_NAME (update by id when an entry with that key
exists, create otherwise) and trigger a build.  A failing call still
appears as an effect (the request was made) and aborts through the
top-level catch. -/
def publishModel (w : World) (m : String) : Option Nat × List Effect :=
  match w.listEnvResult with
  | .error _ => errorExit [.netlifyListEnv]
  | .ok envVars =>
    match envVars.find? (fun v => v.key = "FINE_TUNED_MODEL_NAME") with
    | none =>
      if w.createEnvOk then
        if w.buildOk then
          (some 0, [.netlifyListEnv, .netlifyCreateEnv "FINE_TUNED_MODEL_NAME" m,
            .netlifyBuild])
        else
          errorExit [.netlifyListEnv, .netlifyCreateEnv "FINE_TUNED_MODEL_NAME" m,
            .netlifyBuild]
      else
        errorExit [.netlifyListEnv, .netlifyCreateEnv "FINE_TUNED_MODEL_NAME" m]
    | some e =>
      if w.patchEnvOk then
        if w.buildOk then
          (some 0, [.netlifyListEnv, .netlifyPatchEnv e.id m, .netlifyBuild])
        else
          errorExit [.netlifyListEnv, .netlifyPatchEnv e.id m, .netlifyBuild]
      else
        errorExit [.netlifyListEnv, .netlifyPatchEnv e.id m]

/-- The whole run of gather-and-finetune.js: credential check, feedback
query, dataset build and write, upload, job submission, polling,
failed-job exit, final retrieval, missing-hosting-credential warning, and
configuration publishing.  The first component is the process exit code
(none when the polling loop is still running after fuel queries), the
second the ordered effects. -/
def runPipeline (w : World) (fuel : Nat) : Option Nat × List Effect :=
  if jsFalsy w.supabaseUrl || jsFalsy w.supabaseKey then
    (some 1, [.print "Missing Supabase env vars."])
  else
    match w.queryResult with
    | .error _ => (some 1, [.queryFeedback, .print "Supabase query error:"])
    | .ok rows =>
      if rows.isEmpty then
        (some 0, [.queryFeedback, .print "No high-rated feedback found. Exiting."])
      else
        match buildLines rows with
        | .error _ => errorExit [.queryFeedback]
        | .ok ls =>
          let effs0 : List Effect :=
            [.queryFeedback, .writeFile ⟨datasetChars ls⟩, .uploadFile]
          match w.uploadResult with
          | .error _ => errorExit effs0
          | .ok fileId =>
            match w.createResult with
            | .error _ => errorExit (effs0 ++ [.createJob fileId])
            | .ok (_, status0) =>
              let effs1 := effs0 ++ [.createJob fileId]
              match pollLoop w.retrieve fuel status0 0 with
              | (.fuelOut _, pe) => (none, effs1 ++ pe)
              | (.netErr _, pe) => errorExit (effs1 ++ pe)
              | (.done st q, pe) =>
                if st = "failed" then
                  (some 1, effs1 ++ pe ++ [.print "Fine-tune job failed!"])
                else
                  match w.retrieve q with
                  | .error _ => errorExit (effs1 ++ pe ++ [.retrieveJob q])
                  | .ok finalResp =>
                    let m := finalResp.fine_tuned_model
                    let effs2 := effs1 ++ pe ++ [.retrieveJob q,
                      .print ("Fine-tune succeeded! New model = " ++ m)]
                    if jsFalsy w.netlifyToken || jsFalsy w.netlifySiteId then
                      (some 0, effs2 ++ [.print
                        ("Missing NETLIFY_AUTH_TOKEN or NETLIFY_SITE_ID. Please manually set FINE_TUNED_MODEL_NAME to: " ++ m)])
                    else
                      let pub := publishModel w m
                      (pub.1, effs2 ++ pub.2)

/-! ## The feedback-ingestion handler (store-feedback.js) -/

/-- The parsed JSON body of a feedback POST; every field the handler reads
may be absent. -/
structure Body where
  sectionId : String
  rating : Option Int
  feedback : Option String
  generatedText : Option String
deriving DecidableEq, Repr

/-- The row the handler inserts: a falsy rating (absent or zero) is stored
as null, absent feedback or generatedText as the empty string. -/
def storeRow (b : Body) : Row :=
  { section_id := b.sectionId
    rating :=
      match b.rating with
      | none => none
      | some r => if r = 0 then none else some r
    feedback := b.feedback.getD ""
    generated_text := some (b.generatedText.getD "") }

/-- The handler's response status and inserted row: 200 for the CORS
preflight, 405 for other non-POST methods, 500 on missing credentials,
unparseable body or insert failure, and otherwise 200 with the row built
by storeRow — no field validation anywhere. -/
def handler (method : String) (hasCreds : Bool) (body : Option Body)
    (insertOk : Bool) : Nat × Option Row :=
  if method = "OPTIONS" then (200, none)
  else if method ≠ "POST" then (405, none)
  else if ¬ hasCreds then (500, none)
  else
    match body with
    | none => (500, none)
    | some b => if insertOk then (200, some (storeRow b)) else (500, none)

/-! ## Lemmas about the JSON line codec -/

theorem hexVal_hexDigit (n : Nat) (h : n < 16) : hexVal (hexDigit n) = some n := by
  interval_cases n <;> rfl

theorem hexDigit_ne_newline (n : Nat) : hexDigit n ≠ '\n' := by
  unfold hexDigit
  split <;> decide

theorem newline_not_mem_escChar (c : Char) : '\n' ∉ escChar c := by
  unfold escChar
  split_ifs with h1 h2 h3 h4 h5 h6 h7 h8
  · decide
  · decide
  · decide
  · decide
  · decide
  · decide
  · decide
  · intro hm
    simp only [List.mem_cons, List.not_mem_nil, or_false] at hm
    rcases hm with h | h | h | h | h | h
    · exact absurd h (by decide)
    · exact absurd h (by decide)
    · exact absurd h (by decide)
    · exact absurd h (by decide)
    · exact hexDigit_ne_newline _ h.symm
    · exact hexDigit_ne_newline _ h.symm
  · intro hm
    simp only [List.mem_cons, List.not_mem_nil, or_false] at hm
    exact h5 hm.symm

theorem parseJStr_escChar_append (c : Char) (t : List Char) :
    parseJStr (escChar c ++ t) = consChar c (parseJStr t) := by
  unfold escChar
  split_ifs with h1 h2 h3 h4 h5 h6 h7 h8
  · subst h1
    rw [List.cons_append, List.cons_append, List.nil_append, parseJStr.eq_def]
    simp
  · subst h2
    rw [List.cons_append, List.cons_append, List.nil_append, parseJStr.eq_def]
    simp
  · subst h3
    rw [List.cons_append, List.cons_append, List.nil_append, parseJStr.eq_def]
    simp
  · subst h4
    rw [List.cons_append, List.cons_append, List.nil_append, parseJStr.eq_def]
    simp
  · subst h5
    rw [List.cons_append, List.cons_append, List.nil_append, parseJStr.eq_def]
    simp
  · subst h6
    rw [List.cons_append, List.cons_append, List.nil_append, parseJStr.eq_def]
    simp
  · subst h7
    rw [List.cons_append, List.cons_append, List.nil_append, parseJStr.eq_def]
    simp
  · have hdiv : c.toNat / 16 < 16 := by omega
    have hmod : c.toNat % 16 < 16 := Nat.mod_lt _ (by omega)
    rw [List.cons_append, List.cons_append, List.cons_append, List.cons_append,
      List.cons_append, List.cons_append, List.nil_append, parseJStr.eq_def]
    simp only [reduceIte, Char.reduceEq, reduceCtorEq]
    rw [hexVal_hexDigit _ hdiv, hexVal_hexDigit _ hmod]
    simp only []
    rw [Nat.div_add_mod, Char.ofNat_toNat]
    simp
  · rw [List.cons_append, List.nil_append, parseJStr.eq_def]
    simp [h1, h2]

theorem parseJStr_escape (s rest : List Char) :
    parseJStr (s.flatMap escChar ++ '"' :: rest) = some (s, rest) := by
  induction s with
  | nil =>
    rw [List.flatMap_nil, List.nil_append, parseJStr.eq_def]
    simp
  | cons c s ih =>
    rw [List.flatMap_cons, List.append_assoc, parseJStr_escChar_append, ih]
    rfl

theorem expectChar_cons (c : Char) (l : List Char) : expectChar c (c :: l) = some l := by
  simp [expectChar]

theorem parseKeyVal_jstr (k v : String) (t : List Char) :
    parseKeyVal (jstr k ++ ':' :: jstr v ++ t) = some (k.data, v.data, t) := by
  have e1 : jstr k ++ ':' :: jstr v ++ t =
      '"' :: (k.data.flatMap escChar ++ '"' ::
        (':' :: ('"' :: (v.data.flatMap escChar ++ '"' :: t)))) := by
    simp [jstr, List.append_assoc]
  rw [e1]
  unfold parseKeyVal
  simp [expectChar, parseJStr_escape]

theorem decodeLine_jsonLine (p c : String) : decodeLine (jsonLine p c) = some (p, c) := by
  have e1 : jsonLine p c =
      '{' :: (jstr "prompt" ++ ':' :: jstr p ++
        (',' :: (jstr "completion" ++ ':' :: jstr c ++ [('}' : Char)]))) := by
    simp [jsonLine, List.append_assoc]
  rw [e1]
  unfold decodeLine
  simp only [expectChar_cons, parseKeyVal_jstr]
  simp

theorem newline_not_mem_jstr (s : String) : '\n' ∉ jstr s := by
  intro hm
  unfold jstr at hm
  rcases List.mem_cons.mp hm with h | hm2
  · exact absurd h (by decide)
  · rcases List.mem_append.mp hm2 with h | h
    · rcases List.mem_flatMap.mp h with ⟨a, _, ha⟩
      exact newline_not_mem_escChar a ha
    · rcases List.mem_singleton.mp h with h2
      exact absurd h2 (by decide)

theorem newline_not_mem_jsonLine (p c : String) : '\n' ∉ jsonLine p c := by
  have e1 : jsonLine p c =
      '{' :: (jstr "prompt" ++ ':' :: (jstr p ++
        (',' :: (jstr "completion" ++ ':' :: (jstr c ++ [('}' : Char)]))))) := by
    simp [jsonLine, List.append_assoc]
  rw [e1]
  intro hm
  rcases List.mem_cons.mp hm with h | hm
  · exact absurd h (by decide)
  rcases List.mem_append.mp hm with h | hm
  · exact newline_not_mem_jstr _ h
  rcases List.mem_cons.mp hm with h | hm
  · exact absurd h (by decide)
  rcases List.mem_append.mp hm with h | hm
  · exact newline_not_mem_jstr _ h
  rcases List.mem_cons.mp hm with h | hm
  · exact absurd h (by decide)
  rcases List.mem_append.mp hm with h | hm
  · exact newline_not_mem_jstr _ h
  rcases List.mem_cons.mp hm with h | hm
  · exact absurd h (by decide)
  rcases List.mem_append.mp hm with h | hm
  · exact newline_not_mem_jstr _ h
  exact absurd (List.mem_singleton.mp hm) (by decide)

/-! ## Lemmas about the JSONL file layout -/

theorem splitNl_ne_nil (l : List Char) : splitNl l ≠ [] := by
  induction l with
  | nil => simp [splitNl]
  | cons c rest ih =>
    show (if c = '\n' then [] :: splitNl rest
      else (splitNl rest).modifyHead fun l => c :: l) ≠ []
    split_ifs
    · simp
    · cases h : splitNl rest with
      | nil => exact absurd h ih
      | cons x xs => simp

theorem splitNl_append (s t : List Char) (h : '\n' ∉ s) :
    splitNl (s ++ '\n' :: t) = s :: splitNl t := by
  induction s with
  | nil =>
    rw [List.nil_append]
    show (if '\n' = '\n' then [] :: splitNl t
      else (splitNl t).modifyHead fun l => '\n' :: l) = [] :: splitNl t
    simp
  | cons c s ih =>
    have hc : ¬ c = '\n' := fun e => h (by simp [e])
    have h2 : '\n' ∉ s := fun m => h (List.mem_cons_of_mem _ m)
    rw [List.cons_append]
    show (if c = '\n' then [] :: splitNl (s ++ '\n' :: t)
      else (splitNl (s ++ '\n' :: t)).modifyHead fun l => c :: l) = (c :: s) :: splitNl t
    rw [if_neg hc, ih h2]
    rfl

theorem splitNl_joinLines (ls : List (List Char)) (hne : ls ≠ [])
    (h : ∀ l ∈ ls, '\n' ∉ l) :
    splitNl (joinLines ls ++ ['\n']) = ls ++ [[]] := by
  induction ls with
  | nil => exact absurd rfl hne
  | cons l ls ih =>
    cases ls with
    | nil =>
      have hl : '\n' ∉ l := h l (by simp)
      have e1 : joinLines [l] ++ ['\n'] = l ++ '\n' :: [] := by simp [joinLines]
      rw [e1, splitNl_append _ _ hl]
      simp [splitNl]
    | cons l2 ls2 =>
      have hl : '\n' ∉ l := h l (by simp)
      have h2 : ∀ x ∈ l2 :: ls2, '\n' ∉ x := fun x hx => h x (by simp [hx])
      have e1 : joinLines (l :: l2 :: ls2) ++ ['\n'] =
          l ++ '\n' :: (joinLines (l2 :: ls2) ++ ['\n']) := by
        rw [joinLines.eq_def]
        simp [List.append_assoc]
      rw [e1, splitNl_append _ _ hl, ih (List.cons_ne_nil _ _) h2]
      rfl

/-! ## Lemmas about dataset construction -/

theorem buildLines_cons (r : Row) (rs : List Row) :
    buildLines (r :: rs) =
      match buildLine r with
      | .error e => .error e
      | .ok l =>
        match buildLines rs with
        | .error e => .error e
        | .ok ls => .ok (l :: ls) := rfl

theorem buildLine_missing (r : Row) (hg : r.generated_text = none) :
    buildLine r = .error .malformedRecord := by
  unfold buildLine
  rw [hg]

theorem buildLine_ok (r : Row) (g : String) (hg : r.generated_text = some g) :
    buildLine r = .ok (jsonLine (mkPrompt r) (mkCompletion g)) := by
  unfold buildLine
  rw [hg]

theorem buildLines_error_of_missing (rows : List Row) (r : Row) (hr : r ∈ rows)
    (hg : r.generated_text = none) :
    buildLines rows = .error .malformedRecord := by
  induction rows with
  | nil => cases hr
  | cons r0 rs ih =>
    rcases List.mem_cons.mp hr with h | h
    · rw [buildLines_cons, buildLine_missing r0 (h ▸ hg)]
    · rw [buildLines_cons]
      cases hb : buildLine r0 with
      | error e => cases e; rfl
      | ok l => rw [ih h]

theorem buildLines_ok_forall₂ (rows : List Row)
    (hwf : ∀ r ∈ rows, r.generated_text ≠ none) :
    ∃ ls, buildLines rows = .ok ls ∧
      List.Forall₂ (fun (r : Row) (l : List Char) =>
        ∃ g, r.generated_text = some g ∧ l = jsonLine (mkPrompt r) (mkCompletion g))
        rows ls := by
  induction rows with
  | nil => exact ⟨[], rfl, List.Forall₂.nil⟩
  | cons r0 rs ih =>
    obtain ⟨g, hg⟩ := Option.ne_none_iff_exists'.mp (hwf r0 (by simp))
    obtain ⟨ls, hls, hf⟩ := ih fun r hr => hwf r (List.mem_cons_of_mem _ hr)
    refine ⟨jsonLine (mkPrompt r0) (mkCompletion g) :: ls, ?_, ?_⟩
    · rw [buildLines_cons, buildLine_ok r0 g hg, hls]
    · exact List.Forall₂.cons ⟨g, hg, rfl⟩ hf

/-! ## Lemmas about the polling loop -/

theorem pollLoop_zero (retrieve : Nat → Except Unit RetrieveResp) (s : String) (k : Nat) :
    pollLoop retrieve 0 s k =
      if terminalStatus s then (.done s k, []) else (.fuelOut k, []) := rfl

theorem pollLoop_succ (retrieve : Nat → Except Unit RetrieveResp) (fuel : Nat)
    (s : String) (k : Nat) :
    pollLoop retrieve (fuel + 1) s k =
      if terminalStatus s then (.done s k, [])
      else
        match retrieve k with
        | .error _ => (.netErr k, [.wait 30000, .retrieveJob k])
        | .ok resp =>
          ((pollLoop retrieve fuel resp.status (k + 1)).1,
            .wait 30000 :: .retrieveJob k :: (pollLoop retrieve fuel resp.status (k + 1)).2) := rfl

theorem pollLoop_terminal (retrieve : Nat → Except Unit RetrieveResp) (fuel : Nat)
    (s : String) (k : Nat) (h : terminalStatus s = true) :
    pollLoop retrieve fuel s k = (.done s k, []) := by
  cases fuel with
  | zero => rw [pollLoop_zero, if_pos h]
  | succ n => rw [pollLoop_succ, if_pos h]

theorem pollLoop_step (retrieve : Nat → Except Unit RetrieveResp) (fuel : Nat)
    (s : String) (k : Nat) (resp : RetrieveResp)
    (hs : terminalStatus s = false) (hr : retrieve k = .ok resp) :
    pollLoop retrieve (fuel + 1) s k =
      ((pollLoop retrieve fuel resp.status (k + 1)).1,
        .wait 30000 :: .retrieveJob k :: (pollLoop retrieve fuel resp.status (k + 1)).2) := by
  rw [pollLoop_succ, if_neg (by simp [hs]), hr]

theorem pollLoop_step_err (retrieve : Nat → Except Unit RetrieveResp) (fuel : Nat)
    (s : String) (k : Nat)
    (hs : terminalStatus s = false) (hr : retrieve k = .error ()) :
    pollLoop retrieve (fuel + 1) s k = (.netErr k, [.wait 30000, .retrieveJob k]) := by
  rw [pollLoop_succ, if_neg (by simp [hs]), hr]

theorem pollLoop_done_terminal (retrieve : Nat → Except Unit RetrieveResp)
    (fuel : Nat) (s : String) (k : Nat) (st : String) (q : Nat)
    (h : (pollLoop retrieve fuel s k).1 = .done st q) :
    st = "succeeded" ∨ st = "failed" := by
  induction fuel generalizing s k with
  | zero =>
    rw [pollLoop_zero] at h
    split_ifs at h with ht
    simp at h
    rcases h with ⟨h1, _⟩
    subst h1
    simpa [terminalStatus] using ht
  | succ fuel ih =>
    rw [pollLoop_succ] at h
    split_ifs at h with ht
    · simp at h
      rcases h with ⟨h1, _⟩
      subst h1
      simpa [terminalStatus] using ht
    · cases hr : retrieve k with
      | error u => rw [hr] at h; simp at h
      | ok resp =>
        rw [hr] at h
        exact ih resp.status (k + 1) h

theorem pollLoop_effects (retrieve : Nat → Except Unit RetrieveResp)
    (fuel : Nat) (s : String) (k : Nat) :
    ∀ e ∈ (pollLoop retrieve fuel s k).2,
      e = .wait 30000 ∨ ∃ j, e = .retrieveJob j := by
  induction fuel generalizing s k with
  | zero =>
    rw [pollLoop_zero]
    split_ifs <;> simp
  | succ fuel ih =>
    rw [pollLoop_succ]
    split_ifs with ht
    · simp
    · cases hr : retrieve k with
      | error u =>
        intro e he
        simp only [List.mem_cons, List.not_mem_nil, or_false] at he
        rcases he with h | h
        · exact Or.inl h
        · exact Or.inr ⟨k, h⟩
      | ok resp =>
        intro e he
        simp only [List.mem_cons] at he
        rcases he with h | h | h
        · exact Or.inl h
        · exact Or.inr ⟨k, h⟩
        · exact ih resp.status (k + 1) e h

theorem pollLoop_no_limit (retrieve : Nat → Except Unit RetrieveResp) (n : Nat) :
    ∀ s k, terminalStatus s = false →
      (∀ j, j < n → ∃ resp, retrieve (k + j) = .ok resp ∧
        terminalStatus resp.status = false) →
      (pollLoop retrieve n s k).1 = .fuelOut (k + n) := by
  induction n with
  | zero =>
    intro s k ht _
    rw [pollLoop_zero, if_neg (by simp [ht])]
    simp
  | succ n ih =>
    intro s k ht hall
    obtain ⟨resp, hr, hrt⟩ := hall 0 (Nat.succ_pos n)
    rw [Nat.add_zero] at hr
    rw [pollLoop_step retrieve n s k resp ht hr]
    have hnext := ih resp.status (k + 1) hrt fun j hj => by
      obtain ⟨r2, ha, hb⟩ := hall (j + 1) (Nat.succ_lt_succ hj)
      have e : k + (j + 1) = k + 1 + j := by omega
      exact ⟨r2, by rw [← e]; exact ha, hb⟩
    have e : k + (n + 1) = k + 1 + n := by omega
    rw [e]
    exact hnext

theorem pollLoop_rrs (retrieve : Nat → Except Unit RetrieveResp) (f : Nat)
    (s0 : String) (hs0 : terminalStatus s0 = false)
    (r0 r1 r2 : RetrieveResp)
    (h0 : retrieve 0 = .ok r0) (hr0 : r0.status = "running")
    (h1 : retrieve 1 = .ok r1) (hr1 : r1.status = "running")
    (h2 : retrieve 2 = .ok r2) (hr2 : r2.status = "succeeded") :
    pollLoop retrieve (f + 3) s0 0 =
      (.done "succeeded" 3,
        [.wait 30000, .retrieveJob 0, .wait 30000, .retrieveJob 1,
          .wait 30000, .retrieveJob 2]) := by
  have e3 : f + 3 = (f + 2) + 1 := rfl
  have e2 : f + 2 = (f + 1) + 1 := rfl
  have hrun : terminalStatus "running" = false := by decide
  rw [e3, pollLoop_step retrieve (f + 2) s0 0 r0 hs0 h0, hr0]
  rw [e2, pollLoop_step retrieve (f + 1) "running" 1 r1 hrun h1, hr1]
  rw [pollLoop_step retrieve f "running" 2 r2 hrun h2, hr2]
  rw [pollLoop_terminal retrieve f "succeeded" 3 (by decide)]

/-! ## Path lemmas for the pipeline driver -/

theorem runPipeline_missing_supabase (w : World) (fuel : Nat)
    (h : (jsFalsy w.supabaseUrl || jsFalsy w.supabaseKey) = true) :
    runPipeline w fuel = (some 1, [.print "Missing Supabase env vars."]) := by
  unfold runPipeline
  rw [if_pos (by simp [h])]

theorem runPipeline_empty (w : World) (fuel : Nat)
    (hu : jsFalsy w.supabaseUrl = false) (hk : jsFalsy w.supabaseKey = false)
    (hq : w.queryResult = .ok []) :
    runPipeline w fuel =
      (some 0, [.queryFeedback, .print "No high-rated feedback found. Exiting."]) := by
  unfold runPipeline
  rw [hu, hk, hq]
  simp

theorem runPipeline_build_error (w : World) (fuel : Nat)
    (hu : jsFalsy w.supabaseUrl = false) (hk : jsFalsy w.supabaseKey = false)
    (rows : List Row) (hq : w.queryResult = .ok rows) (hne : rows ≠ [])
    (hb : buildLines rows = .error .malformedRecord) :
    runPipeline w fuel =
      (some 1, [.queryFeedback, .print "Fine-tune script error:"]) := by
  unfold runPipeline
  rw [hu, hk, hq]
  cases rows with
  | nil => exact absurd rfl hne
  | cons r rs =>
    simp only [Bool.or_self, Bool.false_eq_true, if_false, ite_false,
      List.isEmpty_cons, hb, errorExit]
    simp

theorem runPipeline_job_failed (w : World) (fuel : Nat)
    (hu : jsFalsy w.supabaseUrl = false) (hk : jsFalsy w.supabaseKey = false)
    (rows : List Row) (hq : w.queryResult = .ok rows) (hne : rows ≠ [])
    (ls : List (List Char)) (hb : buildLines rows = .ok ls)
    (fid : String) (hup : w.uploadResult = .ok fid)
    (jid s0 : String) (hcr : w.createResult = .ok (jid, s0))
    (q : Nat) (pe : List Effect)
    (hpoll : pollLoop w.retrieve fuel s0 0 = (.done "failed" q, pe)) :
    runPipeline w fuel =
      (some 1, [Effect.queryFeedback, .writeFile ⟨datasetChars ls⟩, .uploadFile,
        .createJob fid] ++ pe ++ [.print "Fine-tune job failed!"]) := by
  unfold runPipeline
  rw [hu, hk, hq]
  cases rows with
  | nil => exact absurd rfl hne
  | cons r rs =>
    simp only [Bool.or_self, Bool.false_eq_true, if_false, ite_false,
      List.isEmpty_cons, hb, hup, hcr, hpoll]
    simp [List.append_assoc]

theorem runPipeline_succeeded_no_netlify (w : World) (fuel : Nat)
    (hu : jsFalsy w.supabaseUrl = false) (hk : jsFalsy w.supabaseKey = false)
    (rows : List Row) (hq : w.queryResult = .ok rows) (hne : rows ≠ [])
    (ls : List (List Char)) (hb : buildLines rows = .ok ls)
    (fid : String) (hup : w.uploadResult = .ok fid)
    (jid s0 : String) (hcr : w.createResult = .ok (jid, s0))
    (q : Nat) (pe : List Effect)
    (hpoll : pollLoop w.retrieve fuel s0 0 = (.done "succeeded" q, pe))
    (fr : RetrieveResp) (hfin : w.retrieve q = .ok fr)
    (hnl : (jsFalsy w.netlifyToken || jsFalsy w.netlifySiteId) = true) :
    runPipeline w fuel =
      (some 0, [Effect.queryFeedback, .writeFile ⟨datasetChars ls⟩, .uploadFile,
        .createJob fid] ++ pe ++ [.retrieveJob q,
        .print ("Fine-tune succeeded! New model = " ++ fr.fine_tuned_model),
        .print ("Missing NETLIFY_AUTH_TOKEN or NETLIFY_SITE_ID. Please manually set FINE_TUNED_MODEL_NAME to: "
          ++ fr.fine_tuned_model)]) := by
  unfold runPipeline
  rw [hu, hk, hq]
  cases rows with
  | nil => exact absurd rfl hne
  | cons r rs =>
    simp only [Bool.or_self, Bool.false_eq_true, if_false, ite_false,
      List.isEmpty_cons, hb, hup, hcr, hpoll, hfin, hnl]
    simp [List.append_assoc]

theorem runPipeline_succeeded_publish (w : World) (fuel : Nat)
    (hu : jsFalsy w.supabaseUrl = false) (hk : jsFalsy w.supabaseKey = false)
    (rows : List Row) (hq : w.queryResult = .ok rows) (hne : rows ≠ [])
    (ls : List (List Char)) (hb : buildLines rows = .ok ls)
    (fid : String) (hup : w.uploadResult = .ok fid)
    (jid s0 : String) (hcr : w.createResult = .ok (jid, s0))
    (q : Nat) (pe : List Effect)
    (hpoll : pollLoop w.retrieve fuel s0 0 = (.done "succeeded" q, pe))
    (fr : RetrieveResp) (hfin : w.retrieve q = .ok fr)
    (hnl : (jsFalsy w.netlifyToken || jsFalsy w.netlifySiteId) = false) :
    runPipeline w fuel =
      ((publishModel w fr.fine_tuned_model).1,
        [Effect.queryFeedback, .writeFile ⟨datasetChars ls⟩, .uploadFile,
          .createJob fid] ++ pe ++ [.retrieveJob q,
          .print ("Fine-tune succeeded! New model = " ++ fr.fine_tuned_model)] ++
          (publishModel w fr.fine_tuned_model).2) := by
  unfold runPipeline
  rw [hu, hk, hq]
  cases rows with
  | nil => exact absurd rfl hne
  | cons r rs =>
    simp only [Bool.or_self, Bool.false_eq_true, if_false, ite_false,
      List.isEmpty_cons, hb, hup, hcr, hpoll, hfin, hnl]
    simp [List.append_assoc]

/-! ## Concrete inputs used by witnesses and counterexamples -/

/-- A well-formed high-rated feedback row. -/
def rowA : Row :=
  { section_id := "intro"
    rating := some 7
    feedback := "good structure"
    generated_text := some "Great text." }

/-- Its serialized dataset line. -/
def lineA : List Char := jsonLine (mkPrompt rowA) (mkCompletion "Great text.")

/-- A base world in which every stage succeeds. -/
def wBase : World :=
  { supabaseUrl := some "https://db.example.com"
    supabaseKey := some "service-role-key"
    queryResult := .ok [rowA]
    uploadResult := .ok "file-abc"
    createResult := .ok ("ftjob-1", "running")
    retrieve := fun _ => .ok ⟨"succeeded", "ft-model-1"⟩
    netlifyToken := some "nfp-token"
    netlifySiteId := some "site-1"
    listEnvResult := .ok []
    createEnvOk := true
    patchEnvOk := true
    buildOk := true }

/-! ## C1 -/

/-- C1: the configuration entry is written only after the job has reached
status succeeded: in every run whose polling loop ends with status failed,
the pipeline exits with code 1 and the trace contains no configuration
list, create, update, or redeploy call. -/
theorem C1_failed_job_publishes_nothing (w : World) (fuel : Nat)
    (hu : jsFalsy w.supabaseUrl = false) (hk : jsFalsy w.supabaseKey = false)
    (rows : List Row) (hq : w.queryResult = .ok rows) (hne : rows ≠ [])
    (ls : List (List Char)) (hb : buildLines rows = .ok ls)
    (fid : String) (hup : w.uploadResult = .ok fid)
    (jid s0 : String) (hcr : w.createResult = .ok (jid, s0))
    (q : Nat) (pe : List Effect)
    (hpoll : pollLoop w.retrieve fuel s0 0 = (.done "failed" q, pe)) :
    (runPipeline w fuel).1 = some 1 ∧
      ∀ e ∈ (runPipeline w fuel).2, isConfigCall e = false := by
  have heq := runPipeline_job_failed w fuel hu hk rows hq hne ls hb fid hup
    jid s0 hcr q pe hpoll
  rw [heq]
  refine ⟨rfl, ?_⟩
  intro e he
  rcases List.mem_append.mp he with he1 | he2
  · rcases List.mem_append.mp he1 with he3 | he4
    · simp only [List.mem_cons, List.not_mem_nil, or_false] at he3
      rcases he3 with h | h | h | h <;> subst h <;> rfl
    · have hpe : (pollLoop w.retrieve fuel s0 0).2 = pe := by rw [hpoll]
      have h2 := pollLoop_effects w.retrieve fuel s0 0 e (by rw [hpe]; exact he4)
      rcases h2 with h | ⟨j, h⟩ <;> subst h <;> rfl
  · have h := List.mem_singleton.mp he2
    subst h
    rfl

/-- World of the C1 witness: the job fails on the first status query. -/
def wC1 : World := { wBase with retrieve := fun _ => .ok ⟨"failed", ""⟩ }

/-- Witness for C1 at a concrete world. -/
theorem C1_witness :
    (runPipeline wC1 1).1 = some 1 ∧
      ∀ e ∈ (runPipeline wC1 1).2, isConfigCall e = false :=
  C1_failed_job_publishes_nothing wC1 1 rfl rfl [rowA] rfl (by simp)
    [lineA] rfl "file-abc" rfl "ftjob-1" "running" rfl 1
    [.wait 30000, .retrieveJob 0] (by decide)

/-! ## C4 -/

/-- C4: a run whose feedback query returns zero qualifying rows exits with
code 0 and its trace contains no file write, no upload, no job submission
and no configuration call. -/
theorem C4_empty_feedback_no_side_effects (w : World) (fuel : Nat)
    (hu : jsFalsy w.supabaseUrl = false) (hk : jsFalsy w.supabaseKey = false)
    (hq : w.queryResult = .ok []) :
    (runPipeline w fuel).1 = some 0 ∧
      ∀ e ∈ (runPipeline w fuel).2, isPipelineSideEffect e = false := by
  have heq := runPipeline_empty w fuel hu hk hq
  rw [heq]
  refine ⟨rfl, ?_⟩
  intro e he
  simp only [List.mem_cons, List.not_mem_nil, or_false] at he
  rcases he with h | h <;> subst h <;> rfl

/-- World of the C4 witness: the query returns no rows. -/
def wC4 : World := { wBase with queryResult := .ok [] }

/-- Witness for C4 at a concrete world. -/
theorem C4_witness :
    (runPipeline wC4 0).1 = some 0 ∧
      ∀ e ∈ (runPipeline wC4 0).2, isPipelineSideEffect e = false :=
  C4_empty_feedback_no_side_effects wC4 0 rfl rfl rfl

/-! ## C5 -/

/-- C5: when any row of the query result lacks generated_text, dataset
building fails with the malformed-record error (no output dataset exists,
so no default is substituted and no row is skipped) and the whole run
aborts with exit code 1 before any file write, upload, job submission or
configuration call. -/
theorem C5_missing_generated_text_aborts (w : World) (fuel : Nat)
    (hu : jsFalsy w.supabaseUrl = false) (hk : jsFalsy w.supabaseKey = false)
    (rows : List Row) (hq : w.queryResult = .ok rows) (hne : rows ≠ [])
    (r : Row) (hr : r ∈ rows) (hg : r.generated_text = none) :
    buildLines rows = .error .malformedRecord ∧
      (∀ ls, buildLines rows ≠ .ok ls) ∧
      (runPipeline w fuel).1 = some 1 ∧
      ∀ e ∈ (runPipeline w fuel).2, isPipelineSideEffect e = false := by
  have hb := buildLines_error_of_missing rows r hr hg
  have heq := runPipeline_build_error w fuel hu hk rows hq hne hb
  rw [heq]
  refine ⟨hb, ?_, rfl, ?_⟩
  · intro ls h
    rw [hb] at h
    cases h
  intro e he
  simp only [List.mem_cons, List.not_mem_nil, or_false] at he
  rcases he with h | h <;> subst h <;> rfl

/-- A row whose generated_text is missing. -/
def rowBad : Row :=
  { section_id := "body"
    rating := some 6
    feedback := "ok"
    generated_text := none }

/-- World of the C5 witness: the second row is malformed. -/
def wC5 : World := { wBase with queryResult := .ok [rowA, rowBad] }

/-- Witness for C5 at a concrete world. -/
theorem C5_witness :
    buildLines [rowA, rowBad] = .error .malformedRecord ∧
      (∀ ls, buildLines [rowA, rowBad] ≠ .ok ls) ∧
      (runPipeline wC5 0).1 = some 1 ∧
      ∀ e ∈ (runPipeline wC5 0).2, isPipelineSideEffect e = false :=
  C5_missing_generated_text_aborts wC5 0 rfl rfl [rowA, rowBad] rfl (by simp)
    rowBad (by simp) rfl

/-! ## C9 -/

/-- C9 counterexample: a run in which the required credential
NETLIFY_AUTH_TOKEN is absent does not abort before network calls with exit
code 1 — it performs the query, upload, submission and retrieval, then
exits with code 0 after printing a manual instruction. -/
def wC9 : World :=
  { wBase with
    createResult := .ok ("ftjob-1", "succeeded")
    netlifyToken := none }

/-- C9 is refuted at wC9: a required credential (the hosting token) is
absent, yet the run makes network calls and exits 0, not 1. -/
theorem C9_counterexample :
    wC9.netlifyToken = none ∧
      (runPipeline wC9 0).1 = some 0 ∧
      Effect.queryFeedback ∈ (runPipeline wC9 0).2 ∧
      isNetworkCall Effect.queryFeedback = true := by
  refine ⟨rfl, ?_, ?_, rfl⟩
  · decide
  · decide

/-- C9 (amended): only the database credentials are checked up front — for
every run in which SUPABASE_URL or SUPABASE_SERVICE_ROLE_KEY is unset or
empty, the process exits with code 1 before any network call; absence of
the hosting-platform credentials is instead detected only after a
successful job and yields exit code 0 with a printed manual instruction. -/
theorem C9_missing_db_credentials_abort (w : World) (fuel : Nat)
    (h : (jsFalsy w.supabaseUrl || jsFalsy w.supabaseKey) = true) :
    (runPipeline w fuel).1 = some 1 ∧
      ∀ e ∈ (runPipeline w fuel).2, isNetworkCall e = false := by
  have heq := runPipeline_missing_supabase w fuel h
  rw [heq]
  refine ⟨rfl, ?_⟩
  intro e he
  have h2 := List.mem_singleton.mp he
  subst h2
  rfl

/-- World of the amended C9 witness: the database URL is unset. -/
def wC9b : World := { wBase with supabaseUrl := none }

/-- Witness for the amended C9 at a concrete world. -/
theorem C9_witness :
    (runPipeline wC9b 0).1 = some 1 ∧
      ∀ e ∈ (runPipeline wC9b 0).2, isNetworkCall e = false :=
  C9_missing_db_credentials_abort wC9b 0 rfl

/-! ## C3 -/

/-- C3: the polling loop queries the job status at a fixed 30-second
interval with no backoff, attempt limit or timeout — every effect it emits
is a 30-second wait or a status retrieval, it is still polling after any
number of non-terminal responses, and it returns only on status succeeded
or failed; for successive queried statuses running, running, succeeded it
returns after exactly three queries, and the model identifier the run then
adopts from the job (non-empty by the provider's guarantee on succeeded
jobs) is reported in the trace. -/
theorem C3_awaitCompletion_polling (w : World) (f : Nat)
    (s0 : String) (hs0 : terminalStatus s0 = false)
    (r0 r1 r2 : RetrieveResp)
    (h0 : w.retrieve 0 = .ok r0) (hr0 : r0.status = "running")
    (h1 : w.retrieve 1 = .ok r1) (hr1 : r1.status = "running")
    (h2 : w.retrieve 2 = .ok r2) (hr2 : r2.status = "succeeded")
    (fr : RetrieveResp) (h3 : w.retrieve 3 = .ok fr)
    (hm : fr.fine_tuned_model ≠ "")
    (hu : jsFalsy w.supabaseUrl = false) (hk : jsFalsy w.supabaseKey = false)
    (rows : List Row) (hq : w.queryResult = .ok rows) (hne : rows ≠ [])
    (ls : List (List Char)) (hb : buildLines rows = .ok ls)
    (fid : String) (hup : w.uploadResult = .ok fid)
    (jid : String) (hcr : w.createResult = .ok (jid, s0)) :
    (∀ fuel s k st q, (pollLoop w.retrieve fuel s k).1 = .done st q →
      st = "succeeded" ∨ st = "failed") ∧
    (∀ fuel s k, ∀ e ∈ (pollLoop w.retrieve fuel s k).2,
      e = .wait 30000 ∨ ∃ j, e = .retrieveJob j) ∧
    (∀ n s k, terminalStatus s = false →
      (∀ j, j < n → ∃ resp, w.retrieve (k + j) = .ok resp ∧
        terminalStatus resp.status = false) →
      (pollLoop w.retrieve n s k).1 = .fuelOut (k + n)) ∧
    pollLoop w.retrieve (f + 3) s0 0 =
      (.done "succeeded" 3,
        [.wait 30000, .retrieveJob 0, .wait 30000, .retrieveJob 1,
          .wait 30000, .retrieveJob 2]) ∧
    (Effect.print ("Fine-tune succeeded! New model = " ++ fr.fine_tuned_model)
        ∈ (runPipeline w (f + 3)).2 ∧ fr.fine_tuned_model ≠ "") := by
  have hpoll := pollLoop_rrs w.retrieve f s0 hs0 r0 r1 r2 h0 hr0 h1 hr1 h2 hr2
  refine ⟨fun fuel s k st q h => pollLoop_done_terminal w.retrieve fuel s k st q h,
    fun fuel s k => pollLoop_effects w.retrieve fuel s k,
    fun n s k ht hall => pollLoop_no_limit w.retrieve n s k ht hall,
    hpoll, ?_, hm⟩
  cases hnl : (jsFalsy w.netlifyToken || jsFalsy w.netlifySiteId) with
  | true =>
    have heq := runPipeline_succeeded_no_netlify w (f + 3) hu hk rows hq hne
      ls hb fid hup jid s0 hcr 3 _ hpoll fr h3 hnl
    rw [heq]
    simp
  | false =>
    have heq := runPipeline_succeeded_publish w (f + 3) hu hk rows hq hne
      ls hb fid hup jid s0 hcr 3 _ hpoll fr h3 hnl
    rw [heq]
    simp

/-- World of the C3 witness: two running responses, then success. -/
def wC3 : World :=
  { wBase with
    retrieve := fun k =>
      if k < 2 then .ok ⟨"running", ""⟩ else .ok ⟨"succeeded", "ft-model-1"⟩ }

/-- Witness for C3 at a concrete world. -/
theorem C3_witness :
    pollLoop wC3.retrieve (0 + 3) "running" 0 =
      (.done "succeeded" 3,
        [.wait 30000, .retrieveJob 0, .wait 30000, .retrieveJob 1,
          .wait 30000, .retrieveJob 2]) ∧
    (Effect.print ("Fine-tune succeeded! New model = " ++ "ft-model-1")
        ∈ (runPipeline wC3 (0 + 3)).2 ∧ ("ft-model-1" : String) ≠ "") := by
  have h := C3_awaitCompletion_polling wC3 0 "running" (by decide)
    ⟨"running", ""⟩ ⟨"running", ""⟩ ⟨"succeeded", "ft-model-1"⟩
    rfl rfl rfl rfl rfl rfl
    ⟨"succeeded", "ft-model-1"⟩ rfl (by decide)
    rfl rfl [rowA] rfl (by simp) [lineA] rfl "file-abc" rfl "ftjob-1" rfl
  exact ⟨h.2.2.2.1, h.2.2.2.2⟩

/-! ## C2 -/

/-- World of the C2 counterexample: the job succeeds at once, the hosting
credentials are present, and the configuration list call fails. -/
def wC2 : World :=
  { wBase with
    createResult := .ok ("ftjob-1", "succeeded")
    listEnvResult := .error () }

/-- C2 is refuted at wC2: the job succeeded and a network call made while
publishing the configuration failed, yet the process exits with code 1,
not the success-classified 0 the claim requires (the model identifier was
still printed before the failure). -/
theorem C2_counterexample :
    wC2.listEnvResult = .error () ∧
      (runPipeline wC2 0).1 = some 1 ∧
      (runPipeline wC2 0).1 ≠ some 0 ∧
      Effect.print ("Fine-tune succeeded! New model = " ++ "ft-model-1")
        ∈ (runPipeline wC2 0).2 := by
  refine ⟨rfl, by decide, by decide, by decide⟩

/-- C2 (amended): when the job succeeds and a network call made while
publishing the configuration fails, the run exits with code 1 through the
top-level catch — the failure is fatal, not success-classified — but the
new model identifier has already been reported to the operator: the
success log containing it precedes the publish attempt in the trace. -/
theorem C2_publish_failure_fatal_but_reported (w : World) (fuel : Nat)
    (hu : jsFalsy w.supabaseUrl = false) (hk : jsFalsy w.supabaseKey = false)
    (rows : List Row) (hq : w.queryResult = .ok rows) (hne : rows ≠ [])
    (ls : List (List Char)) (hb : buildLines rows = .ok ls)
    (fid : String) (hup : w.uploadResult = .ok fid)
    (jid s0 : String) (hcr : w.createResult = .ok (jid, s0))
    (q : Nat) (pe : List Effect)
    (hpoll : pollLoop w.retrieve fuel s0 0 = (.done "succeeded" q, pe))
    (fr : RetrieveResp) (hfin : w.retrieve q = .ok fr)
    (hnl : (jsFalsy w.netlifyToken || jsFalsy w.netlifySiteId) = false)
    (hpub : (publishModel w fr.fine_tuned_model).1 = some 1) :
    (runPipeline w fuel).1 = some 1 ∧
      Effect.print ("Fine-tune succeeded! New model = " ++ fr.fine_tuned_model)
        ∈ (runPipeline w fuel).2 := by
  have heq := runPipeline_succeeded_publish w fuel hu hk rows hq hne ls hb
    fid hup jid s0 hcr q pe hpoll fr hfin hnl
  rw [heq]
  refine ⟨hpub, ?_⟩
  simp

/-- Witness for the amended C2 at the counterexample world. -/
theorem C2_witness :
    (runPipeline wC2 0).1 = some 1 ∧
      Effect.print ("Fine-tune succeeded! New model = " ++
        RetrieveResp.fine_tuned_model ⟨"succeeded", "ft-model-1"⟩)
        ∈ (runPipeline wC2 0).2 :=
  C2_publish_failure_fatal_but_reported wC2 0 rfl rfl [rowA] rfl (by simp)
    [lineA] rfl "file-abc" rfl "ftjob-1" "succeeded" rfl 0 [] (by decide)
    ⟨"succeeded", "ft-model-1"⟩ rfl rfl (by decide)

/-! ## C8 -/

/-- C8: publishModel lists the configuration entries and searches for
FINE_TUNED_MODEL_NAME; when an entry with that key exists it issues an
update addressed by that entry's id (no create), when none exists it
issues a create with the model identifier as the production value, and in
both cases it then triggers a redeploy build. -/
theorem C8_publish_upsert (w : World) (m : String) (envVars : List EnvEntry)
    (hlist : w.listEnvResult = .ok envVars)
    (hcre : w.createEnvOk = true) (hpat : w.patchEnvOk = true)
    (hbld : w.buildOk = true) :
    (∀ e, envVars.find? (fun v => v.key = "FINE_TUNED_MODEL_NAME") = some e →
      publishModel w m =
        (some 0, [.netlifyListEnv, .netlifyPatchEnv e.id m, .netlifyBuild])) ∧
    (envVars.find? (fun v => v.key = "FINE_TUNED_MODEL_NAME") = none →
      publishModel w m =
        (some 0, [.netlifyListEnv,
          .netlifyCreateEnv "FINE_TUNED_MODEL_NAME" m, .netlifyBuild])) := by
  constructor
  · intro e hfind
    unfold publishModel
    rw [hlist]
    simp only [hfind, hpat, hbld, if_true]
  · intro hfind
    unfold publishModel
    rw [hlist]
    simp only [hfind, hcre, hbld, if_true]

/-- The existing configuration entry of the C8 witness. -/
def entryFT : EnvEntry := { id := "env-1", key := "FINE_TUNED_MODEL_NAME" }

/-- World of the C8 witness update case: the entry already exists. -/
def wC8 : World := { wBase with listEnvResult := .ok [entryFT] }

/-- Witness for C8 at concrete worlds: update case on wC8 (entry present,
patch addressed by its id) and create case on wBase (no entry). -/
theorem C8_witness :
    publishModel wC8 "ft-model-1" =
      (some 0, [.netlifyListEnv, .netlifyPatchEnv "env-1" "ft-model-1",
        .netlifyBuild]) ∧
    publishModel wBase "ft-model-1" =
      (some 0, [.netlifyListEnv,
        .netlifyCreateEnv "FINE_TUNED_MODEL_NAME" "ft-model-1",
        .netlifyBuild]) :=
  ⟨(C8_publish_upsert wC8 "ft-model-1" [entryFT] rfl rfl rfl rfl).1
      entryFT (by decide),
    (C8_publish_upsert wBase "ft-model-1" [] rfl rfl rfl rfl).2 rfl⟩

/-! ## C6 -/

theorem forall₂_mem_right {α β : Type} {R : α → β → Prop}
    {as : List α} {bs : List β} (h : List.Forall₂ R as bs) :
    ∀ b ∈ bs, ∃ a, a ∈ as ∧ R a b := by
  induction h with
  | nil => intro b hb; cases hb
  | cons hr ht ih =>
    intro b hb
    rcases List.mem_cons.mp hb with h1 | h1
    · exact ⟨_, List.mem_cons_self _ _, by rw [h1]; exact hr⟩
    · obtain ⟨a, ha, hr2⟩ := ih b h1
      exact ⟨a, List.mem_cons_of_mem _ ha, hr2⟩

/-- C6: for every non-empty sequence of well-formed rows, the dataset file
holds exactly one JSON line per row in input order (a Forall₂ between rows
and lines), each line decodes to exactly its prompt/completion pair,
splitting the file at newlines yields the lines followed by a single empty
segment (exactly one trailing newline), and no line is blank. -/
theorem C6_dataset_serialization (rows : List Row) (hne : rows ≠ [])
    (hwf : ∀ r ∈ rows, r.generated_text ≠ none) :
    ∃ ls, buildLines rows = .ok ls ∧
      ls.length = rows.length ∧
      List.Forall₂ (fun (r : Row) (l : List Char) =>
        ∃ g, r.generated_text = some g ∧
          l = jsonLine (mkPrompt r) (mkCompletion g) ∧
          decodeLine l = some (mkPrompt r, mkCompletion g)) rows ls ∧
      splitNl (datasetChars ls) = ls ++ [[]] ∧
      (∀ l ∈ ls, l ≠ [] ∧ '\n' ∉ l) := by
  obtain ⟨ls, hok, hf⟩ := buildLines_ok_forall₂ rows hwf
  have hf2 : List.Forall₂ (fun (r : Row) (l : List Char) =>
      ∃ g, r.generated_text = some g ∧
        l = jsonLine (mkPrompt r) (mkCompletion g) ∧
        decodeLine l = some (mkPrompt r, mkCompletion g)) rows ls := by
    refine hf.imp ?_
    rintro r l ⟨g, hg, hl⟩
    exact ⟨g, hg, hl, by rw [hl]; exact decodeLine_jsonLine _ _⟩
  have hmem : ∀ l ∈ ls, l ≠ [] ∧ '\n' ∉ l := by
    intro l hl
    obtain ⟨r, _, g, _, hleq, _⟩ := forall₂_mem_right hf2 l hl
    constructor
    · rw [hleq]
      simp [jsonLine]
    · rw [hleq]
      exact newline_not_mem_jsonLine _ _
  have hlsne : ls ≠ [] := by
    intro h
    subst h
    exact hne (List.length_eq_zero.mp (by simpa using hf.length_eq))
  refine ⟨ls, hok, hf.length_eq.symm, hf2, ?_, hmem⟩
  show splitNl (joinLines ls ++ ['\n']) = ls ++ [[]]
  exact splitNl_joinLines ls hlsne fun l hl => (hmem l hl).2

/-- Witness for C6 on a one-row input. -/
theorem C6_witness :
    ∃ ls, buildLines [rowA] = .ok ls ∧
      ls.length = [rowA].length ∧
      List.Forall₂ (fun (r : Row) (l : List Char) =>
        ∃ g, r.generated_text = some g ∧
          l = jsonLine (mkPrompt r) (mkCompletion g) ∧
          decodeLine l = some (mkPrompt r, mkCompletion g)) [rowA] ls ∧
      splitNl (datasetChars ls) = ls ++ [[]] ∧
      (∀ l ∈ ls, l ≠ [] ∧ '\n' ∉ l) :=
  C6_dataset_serialization [rowA] (by simp) (by decide)

/-! ## C7 -/

/-- C7: the completion of every derived training example is the row's
generated text with surrounding whitespace trimmed and the fixed marker
appended, the serialized line decodes back to the same prompt/completion
pair, and for the generated text of two-space-padded Hello world the
completion is exactly Hello world. END. -/
theorem C7_completion_construction :
    (∀ (r : Row) (g : String), r.generated_text = some g →
      buildLine r = .ok (jsonLine (mkPrompt r) (jsTrim g ++ " END")) ∧
      decodeLine (jsonLine (mkPrompt r) (jsTrim g ++ " END")) =
        some (mkPrompt r, jsTrim g ++ " END")) ∧
    mkCompletion "  Hello world.  " = "Hello world. END" := by
  refine ⟨fun r g hg => ⟨?_, decodeLine_jsonLine _ _⟩, ?_⟩
  · rw [buildLine_ok r g hg]
    rfl
  · rfl

/-- The row of the C7 witness. -/
def rowHello : Row :=
  { section_id := "summary"
    rating := some 7
    feedback := "tighten the wording"
    generated_text := some "  Hello world.  " }

/-- Witness for C7 at the concrete padded Hello world row. -/
theorem C7_witness :
    buildLine rowHello =
      .ok (jsonLine (mkPrompt rowHello) (jsTrim "  Hello world.  " ++ " END")) ∧
    decodeLine (jsonLine (mkPrompt rowHello) (jsTrim "  Hello world.  " ++ " END")) =
      some (mkPrompt rowHello, jsTrim "  Hello world.  " ++ " END") :=
  C7_completion_construction.1 rowHello "  Hello world.  " rfl

/-! ## C10 -/

/-- C10: the ingestion handler accepts every parseable POST body without
field validation — a missing rating is stored as null, missing feedback or
generatedText as the empty string — and a stored row with rating 7 and
empty generated text passes the pipeline's rating-only filter. -/
theorem C10_handler_never_rejects :
    (∀ b : Body, handler "POST" true (some b) true = (200, some (storeRow b))) ∧
    (∀ b : Body, b.rating = none → (storeRow b).rating = none) ∧
    (∀ b : Body, b.feedback = none → (storeRow b).feedback = "") ∧
    (∀ b : Body, b.generatedText = none → (storeRow b).generated_text = some "") ∧
    (∀ b : Body, b.rating = some 7 → b.generatedText = none →
      fetchHighRated [storeRow b] = [storeRow b] ∧
      (storeRow b).generated_text = some "") := by
  refine ⟨fun b => rfl, fun b h => by simp [storeRow, h],
    fun b h => by simp [storeRow, h], fun b h => by simp [storeRow, h],
    fun b h7 hg => ⟨?_, by simp [storeRow, hg]⟩⟩
  simp [fetchHighRated, storeRow, h7]

/-- A POST body with every optional field absent. -/
def bodyEmpty : Body :=
  { sectionId := "s1", rating := none, feedback := none, generatedText := none }

/-- A POST body rated 7 whose generatedText is absent. -/
def bodyRated : Body :=
  { sectionId := "s1", rating := some 7, feedback := none, generatedText := none }

/-- Witness for C10 at concrete bodies. -/
theorem C10_witness :
    handler "POST" true (some bodyEmpty) true = (200, some (storeRow bodyEmpty)) ∧
      (storeRow bodyEmpty).rating = none ∧
      (storeRow bodyEmpty).feedback = "" ∧
      (storeRow bodyEmpty).generated_text = some "" ∧
      (fetchHighRated [storeRow bodyRated] = [storeRow bodyRated] ∧
        (storeRow bodyRated).generated_text = some "") :=
  ⟨C10_handler_never_rejects.1 bodyEmpty,
    C10_handler_never_rejects.2.1 bodyEmpty rfl,
    C10_handler_never_rejects.2.2.1 bodyEmpty rfl,
    C10_handler_never_rejects.2.2.2.1 bodyEmpty rfl,
    C10_handler_never_rejects.2.2.2.2 bodyRated rfl rfl⟩
